import Mathlib

/-
  Verification development for the PCSI system (src/main.py).

  The Python source is shallowly embedded: pure methods become Lean
  functions, the mutable PCSISystem object becomes explicit state passing,
  Python exceptions raised by the extraction collaborator become an
  Except value consumed by process_url, and Python Optional fields become
  Option String.  Python string length (code points) is String.length;
  the UTF-8 encoding used for hashing is made explicit.
-/

/-! ## Canonical S-expression encoder (class SExpression) -/

/-- Embeds SExpression.create_string.  Python: if s is None or s == "",
return ""; else return f"{len(s)}:{s}".  Python len on str counts code
points, which is String.length in Lean. -/
def SExpression.create_string (s : String) : String :=
  if s = "" then "" else toString s.length ++ ":" ++ s

/-- The None case of SExpression.create_string, for call sites that pass an
Optional[str] (the Python function accepts None and returns ""). -/
def SExpression.create_string_opt : Option String → String
  | none => ""
  | some s => SExpression.create_string s

/-- Embeds SExpression.create_object.  Python: if not content: return "";
else return f"({name_expr}{content})". -/
def SExpression.create_object (name : String) (content : String) : String :=
  if content = "" then ""
  else "(" ++ SExpression.create_string name ++ content ++ ")"

/-! ### UTF-8 encoding, SHA-256 and base64 (for SExpression.hash_sexp)

Python: hashlib.sha256(sexp.encode(utf-8)) then base64.b64encode.
Bytes and 32-bit words are modelled as Nat with explicit reduction
mod 2^32 where overflow matters. -/

/-- UTF-8 bytes of one code point. -/
def utf8BytesOfChar (c : Char) : List Nat :=
  let n := c.toNat
  if n < 128 then [n]
  else if n < 2048 then [192 + n / 64, 128 + n % 64]
  else if n < 65536 then
    [224 + n / 4096, 128 + (n / 64) % 64, 128 + n % 64]
  else
    [240 + n / 262144, 128 + (n / 4096) % 64, 128 + (n / 64) % 64, 128 + n % 64]

/-- UTF-8 encoding of a string as a byte list. -/
def utf8Bytes (s : String) : List Nat :=
  (s.data.map utf8BytesOfChar).flatten

/-- 32-bit right rotation. -/
def rotr32 (n x : Nat) : Nat :=
  ((x >>> n) ||| (x <<< (32 - n))) % 4294967296

/-- The 64 SHA-256 round constants, in decimal. -/
def sha256K : List Nat :=
  [1116352408, 1899447441, 3049323471, 3921009573, 961987163,
   1508970993, 2453635748, 2870763221, 3624381080, 310598401,
   607225278, 1426881987, 1925078388, 2162078206, 2614888103,
   3248222580, 3835390401, 4022224774, 264347078, 604807628,
   770255983, 1249150122, 1555081692, 1996064986, 2554220882,
   2821834349, 2952996808, 3210313671, 3336571891, 3584528711,
   113926993, 338241895, 666307205, 773529912, 1294757372,
   1396182291, 1695183700, 1986661051, 2177026350, 2456956037,
   2730485921, 2820302411, 3259730800, 3345764771, 3516065817,
   3600352804, 4094571909, 275423344, 430227734, 506948616,
   659060556, 883997877, 958139571, 1322822218, 1537002063,
   1747873779, 1955562222, 2024104815, 2227730452, 2361852424,
   2428436474, 2756734187, 3204031479, 3329325298]

/-- The 8 initial SHA-256 hash words, in decimal. -/
def sha256H0 : List Nat :=
  [1779033703, 3144134277, 1013904242, 2773480762,
   1359893119, 2600822924, 528734635, 1541459225]

/-- Group a byte list into big-endian 32-bit words. -/
def wordsOfBytes : List Nat → List Nat
  | b0 :: b1 :: b2 :: b3 :: rest =>
    (b0 * 16777216 + b1 * 65536 + b2 * 256 + b3) :: wordsOfBytes rest
  | _ => []

def smallSigma0 (x : Nat) : Nat := rotr32 7 x ^^^ rotr32 18 x ^^^ (x >>> 3)
def smallSigma1 (x : Nat) : Nat := rotr32 17 x ^^^ rotr32 19 x ^^^ (x >>> 10)
def bigSigma0 (x : Nat) : Nat := rotr32 2 x ^^^ rotr32 13 x ^^^ rotr32 22 x
def bigSigma1 (x : Nat) : Nat := rotr32 6 x ^^^ rotr32 11 x ^^^ rotr32 25 x

/-- Extend the 16-word message schedule by n further words. -/
def extendSchedule : List Nat → Nat → List Nat
  | ws, 0 => ws
  | ws, n + 1 =>
    let t := ws.length
    let wt := (smallSigma1 (ws.getD (t - 2) 0) + ws.getD (t - 7) 0 +
               smallSigma0 (ws.getD (t - 15) 0) + ws.getD (t - 16) 0) % 4294967296
    extendSchedule (ws ++ [wt]) n

structure Sha256State where
  a : Nat
  b : Nat
  c : Nat
  d : Nat
  e : Nat
  f : Nat
  g : Nat
  h : Nat
deriving DecidableEq

def sha256Round (st : Sha256State) (kw : Nat × Nat) : Sha256State :=
  let ch := (st.e &&& st.f) ^^^ ((st.e ^^^ 4294967295) &&& st.g)
  let maj := (st.a &&& st.b) ^^^ (st.a &&& st.c) ^^^ (st.b &&& st.c)
  let t1 := (st.h + bigSigma1 st.e + ch + kw.1 + kw.2) % 4294967296
  let t2 := (bigSigma0 st.a + maj) % 4294967296
  { a := (t1 + t2) % 4294967296, b := st.a, c := st.b, d := st.c,
    e := (st.d + t1) % 4294967296, f := st.e, g := st.f, h := st.g }

/-- Compress one 64-byte block into the running hash (8 words). -/
def sha256Compress (hs : List Nat) (block : List Nat) : List Nat :=
  let ws := extendSchedule (wordsOfBytes block) 48
  let init : Sha256State :=
    { a := hs.getD 0 0, b := hs.getD 1 0, c := hs.getD 2 0, d := hs.getD 3 0,
      e := hs.getD 4 0, f := hs.getD 5 0, g := hs.getD 6 0, h := hs.getD 7 0 }
  let fin := (sha256K.zip ws).foldl sha256Round init
  [(hs.getD 0 0 + fin.a) % 4294967296, (hs.getD 1 0 + fin.b) % 4294967296,
   (hs.getD 2 0 + fin.c) % 4294967296, (hs.getD 3 0 + fin.d) % 4294967296,
   (hs.getD 4 0 + fin.e) % 4294967296, (hs.getD 5 0 + fin.f) % 4294967296,
   (hs.getD 6 0 + fin.g) % 4294967296, (hs.getD 7 0 + fin.h) % 4294967296]

/-- Split a byte list into 64-byte blocks. -/
def toBlocks : List Nat → List (List Nat)
  | [] => []
  | b :: rest => (b :: rest).take 64 :: toBlocks ((b :: rest).drop 64)
termination_by l => l.length
decreasing_by simp [List.drop]; omega

/-- Big-endian 8-byte encoding of a Nat. -/
def be64 (n : Nat) : List Nat :=
  [n / 72057594037927936 % 256, n / 281474976710656 % 256,
   n / 1099511627776 % 256, n / 4294967296 % 256,
   n / 16777216 % 256, n / 65536 % 256, n / 256 % 256, n % 256]

/-- Big-endian 4-byte encoding of a 32-bit word. -/
def be32 (n : Nat) : List Nat :=
  [n / 16777216 % 256, n / 65536 % 256, n / 256 % 256, n % 256]

/-- SHA-256 of a byte list, as 32 bytes. -/
def sha256 (msg : List Nat) : List Nat :=
  let padZeros := (119 - msg.length % 64) % 64
  let padded := msg ++ [128] ++ List.replicate padZeros 0 ++ be64 (msg.length * 8)
  let final := (toBlocks padded).foldl sha256Compress sha256H0
  (final.map be32).flatten

def base64Table : List Char :=
  "ABCDEFGHIJKLMNOPQRSTUVWXYZabcdefghijklmnopqrstuvwxyz0123456789+/".data

def base64Digit (n : Nat) : Char := base64Table.getD n 'A'

/-- Standard base64 encoding of a byte list, with padding. -/
def base64Encode : List Nat → String
  | b0 :: b1 :: b2 :: rest =>
    let n := b0 * 65536 + b1 * 256 + b2
    String.mk [base64Digit (n / 262144), base64Digit (n / 4096 % 64),
               base64Digit (n / 64 % 64), base64Digit (n % 64)] ++ base64Encode rest
  | [b0, b1] =>
    let n := b0 * 65536 + b1 * 256
    String.mk [base64Digit (n / 262144), base64Digit (n / 4096 % 64),
               base64Digit (n / 64 % 64), '=']
  | [b0] =>
    let n := b0 * 65536
    String.mk [base64Digit (n / 262144), base64Digit (n / 4096 % 64), '=', '=']
  | [] => ""

/-- Embeds SExpression.hash_sexp: base64 of the SHA-256 digest of the
UTF-8 encoding of the S-expression text. -/
def SExpression.hash_sexp (sexp : String) : String :=
  base64Encode (sha256 (utf8Bytes sexp))

/-! ## Content model (Link, Paragraph, Subheading, Image, ArticleBody, Article) -/

structure Link where
  url : String
deriving DecidableEq

def Link.to_sexp (l : Link) : String :=
  SExpression.create_object "link"
    (SExpression.create_object "url" (SExpression.create_string l.url))

/-- A Paragraph content item: Python List[Union[str, Link]]. -/
inductive Inline
  | text (s : String)
  | link (l : Link)
deriving DecidableEq

/-- One item of the Paragraph.to_sexp loop body. -/
def Inline.sexp : Inline → String
  | .text s => SExpression.create_string s
  | .link l => l.to_sexp

structure Paragraph where
  content : List Inline
deriving DecidableEq

def Paragraph.to_sexp (p : Paragraph) : String :=
  SExpression.create_object "paragraph"
    (p.content.foldl (fun acc it => acc ++ it.sexp) "")

structure Subheading where
  text : String
deriving DecidableEq

def Subheading.to_sexp (s : Subheading) : String :=
  SExpression.create_object "subheading" (SExpression.create_string s.text)

structure Image where
  url : String
  caption : String
deriving DecidableEq

def Image.to_sexp (i : Image) : String :=
  SExpression.create_object "image"
    (SExpression.create_object "url" (SExpression.create_string i.url) ++
     SExpression.create_object "caption" (SExpression.create_string i.caption))

/-- A body element: Python Union[Paragraph, Subheading, Image]. -/
inductive Element
  | para (p : Paragraph)
  | sub (s : Subheading)
  | img (i : Image)
deriving DecidableEq

/-- Dynamic dispatch of element.to_sexp in the ArticleBody loop. -/
def Element.to_sexp : Element → String
  | .para p => p.to_sexp
  | .sub s => s.to_sexp
  | .img i => i.to_sexp

structure ArticleBody where
  elements : List Element
deriving DecidableEq

def ArticleBody.to_sexp (b : ArticleBody) : String :=
  SExpression.create_object "body"
    (b.elements.foldl (fun acc e => acc ++ e.to_sexp) "")

structure Article where
  headline : String
  date : Int
  author : String
  body : ArticleBody
deriving DecidableEq

def Article.to_sexp (a : Article) : String :=
  SExpression.create_object "article"
    (SExpression.create_object "headline" (SExpression.create_string a.headline) ++
     SExpression.create_object "date" (SExpression.create_string (toString a.date)) ++
     SExpression.create_object "author" (SExpression.create_string a.author) ++
     a.body.to_sexp)

/-- Embeds ContentObject.hash: SExpression.hash_sexp of to_sexp. -/
def Article.hash (a : Article) : String :=
  SExpression.hash_sexp a.to_sexp

/-! ## PCSI records (Rule, Inference, Perception) -/

/-- Python truthiness of an Optional[str]: None and "" are falsy. -/
def pyTruthy : Option String → Bool
  | none => false
  | some s => !(s == "")

/-- Python f-string interpolation of an Optional[str]: None prints as "None". -/
def pyStrOpt : Option String → String
  | none => "None"
  | some s => s

structure Rule where
  source : String
  timestamp : Nat
  pattern : String
  script_hash : String
  object_type : String
  script : Option String
deriving DecidableEq

def Rule.to_sexp (r : Rule) : String :=
  let source_expr := SExpression.create_object "source" ("|" ++ r.source ++ "|")
  let timestamp_expr :=
    SExpression.create_object "timestamp" (SExpression.create_string (toString r.timestamp))
  let pattern_expr := SExpression.create_object "pattern" (SExpression.create_string r.pattern)
  let script_hash_expr := SExpression.create_object "script-hash" ("|" ++ r.script_hash ++ "|")
  let object_type_expr :=
    SExpression.create_object "object-type" (SExpression.create_string r.object_type)
  let content := source_expr ++ timestamp_expr ++ pattern_expr ++ script_hash_expr ++
    object_type_expr
  let content := if pyTruthy r.script then
      content ++ SExpression.create_object "script" (SExpression.create_string_opt r.script)
    else content
  SExpression.create_object "rule" content

structure Inference where
  source : String
  timestamp : Nat
  url : String
  script_hash : String
  object_type : Option String
  object_hash : Option String
  error : Option String
  script : Option String
  object : Option String
deriving DecidableEq

/-- Embeds Inference.to_sexp, including the Python truthiness test
"if self.error:" which sends an empty error string to the else branch. -/
def Inference.to_sexp (i : Inference) : String :=
  let source_expr := SExpression.create_object "source" ("|" ++ i.source ++ "|")
  let timestamp_expr :=
    SExpression.create_object "timestamp" (SExpression.create_string (toString i.timestamp))
  let url_expr := SExpression.create_object "url" (SExpression.create_string i.url)
  let script_hash_expr := SExpression.create_object "script-hash" ("|" ++ i.script_hash ++ "|")
  let content := source_expr ++ timestamp_expr ++ url_expr ++ script_hash_expr
  let content := if pyTruthy i.error then
      content ++ SExpression.create_object "error" (SExpression.create_string_opt i.error)
    else
      content ++
        SExpression.create_object "object-type" (SExpression.create_string_opt i.object_type) ++
        SExpression.create_object "object-hash" ("|" ++ pyStrOpt i.object_hash ++ "|")
  let content := if pyTruthy i.script then
      content ++ SExpression.create_object "script" (SExpression.create_string_opt i.script)
    else content
  let content := if pyTruthy i.object then
      content ++ SExpression.create_object "object" (pyStrOpt i.object)
    else content
  SExpression.create_object "inference" content

structure Perception where
  source : String
  timestamp : Nat
  url : String
  object_type : String
  object_hash : String
  valid : Bool
deriving DecidableEq

def Perception.to_sexp (p : Perception) : String :=
  let source_expr := SExpression.create_object "source" ("|" ++ p.source ++ "|")
  let timestamp_expr :=
    SExpression.create_object "timestamp" (SExpression.create_string (toString p.timestamp))
  let url_expr := SExpression.create_object "url" (SExpression.create_string p.url)
  let object_type_expr :=
    SExpression.create_object "object-type" (SExpression.create_string p.object_type)
  let object_hash_expr := SExpression.create_object "object-hash" ("|" ++ p.object_hash ++ "|")
  let valid_expr :=
    SExpression.create_object "valid" (SExpression.create_string (if p.valid then "1" else "0"))
  SExpression.create_object "perception"
    (source_expr ++ timestamp_expr ++ url_expr ++ object_type_expr ++ object_hash_expr ++
     valid_expr)

/-! ## Regular expressions (Python re.match on the patterns used here)

The patterns appearing in the program and the spec use literals, the
escape sequence backslash-dot, the wildcard dot, groups, and the postfix
operators star and question mark.  They are parsed into a syntax tree and
matched with Brzozowski derivatives; re.match semantics are
prefix-anchored: the pattern must match some prefix of the input. -/

inductive Regex
  | fail
  | eps
  | lit (c : Char)
  | dot
  | alt (r1 r2 : Regex)
  | cat (r1 r2 : Regex)
  | star (r : Regex)
  | opt (r : Regex)
deriving DecidableEq

/-- Does the regex accept the empty string? -/
def Regex.nullable : Regex → Bool
  | .fail => false
  | .eps => true
  | .lit _ => false
  | .dot => false
  | .alt r1 r2 => r1.nullable || r2.nullable
  | .cat r1 r2 => r1.nullable && r2.nullable
  | .star _ => true
  | .opt _ => true

/-- Brzozowski derivative with respect to one character. -/
def Regex.deriv : Regex → Char → Regex
  | .fail, _ => .fail
  | .eps, _ => .fail
  | .lit d, c => if d = c then .eps else .fail
  | .dot, _ => .eps
  | .alt r1 r2, c => .alt (r1.deriv c) (r2.deriv c)
  | .cat r1 r2, c =>
    if r1.nullable then .alt (.cat (r1.deriv c) r2) (r2.deriv c)
    else .cat (r1.deriv c) r2
  | .star r, c => .cat (r.deriv c) (.star r)
  | .opt r, c => r.deriv c

/-- Does the regex match some prefix of the character list? -/
def Regex.matchPre : Regex → List Char → Bool
  | r, [] => r.nullable
  | r, c :: cs => r.nullable || (r.deriv c).matchPre cs

/-- Attach a postfix star or question mark to the preceding atom. -/
def applyPostfixOp (r : Regex) : List Char → Regex × List Char
  | '*' :: rest => (.star r, rest)
  | '?' :: rest => (.opt r, rest)
  | cs => (r, cs)

mutual
/-- Parse one pattern atom: a group, an escaped character, the wildcard
dot, or a literal character. -/
def parseAtom : Nat → List Char → Option (Regex × List Char)
  | 0, _ => none
  | _ + 1, [] => none
  | fuel + 1, c :: rest =>
    if c = '(' then
      match parseSeq fuel rest with
      | none => none
      | some (r, rest1) =>
        match rest1 with
        | ')' :: rest2 => some (r, rest2)
        | _ => none
    else if c = '\\' then
      match rest with
      | [] => none
      | d :: rest1 => some (.lit d, rest1)
    else if c = '.' then some (.dot, rest)
    else if c = ')' ∨ c = '*' ∨ c = '?' then none
    else some (.lit c, rest)

/-- Parse a sequence of atoms with optional postfix operators, stopping at
a closing parenthesis or the end of the pattern. -/
def parseSeq : Nat → List Char → Option (Regex × List Char)
  | 0, _ => none
  | _ + 1, [] => some (.eps, [])
  | fuel + 1, c :: rest =>
    if c = ')' then some (.eps, c :: rest)
    else
      match parseAtom fuel (c :: rest) with
      | none => none
      | some (a, rest1) =>
        let p := applyPostfixOp a rest1
        match parseSeq fuel p.2 with
        | none => none
        | some (b, rest2) => some (.cat p.1 b, rest2)
end

/-- Compile a pattern string to a regex syntax tree. -/
def compilePattern (p : String) : Option Regex :=
  match parseSeq (2 * p.data.length + 2) p.data with
  | some (r, []) => some r
  | _ => none

/-- Embeds re.match(pattern, url) used as a boolean: true when the pattern
matches a prefix of the url. -/
def re_match (pattern url : String) : Bool :=
  match compilePattern pattern with
  | some r => r.matchPre url.data
  | none => false

/-! ## PCSISystem (rule registry + provenance ledger) -/

/-- Python substring containment needle in hay, as in the expression
"bbc.com" in url. -/
def headMatches : List Char → List Char → Bool
  | [], _ => true
  | _ :: _, [] => false
  | a :: as, b :: bs => a = b && headMatches as bs

def pyContains : List Char → List Char → Bool
  | needle, [] => headMatches needle []
  | needle, h :: t => headMatches needle (h :: t) || pyContains needle t

/-- The mutable state of a PCSISystem object: the source id and the three
append-only collections. -/
structure PCSISystem where
  source_id : String
  rules : List Rule
  inferences : List Inference
  perceptions : List Perception
deriving DecidableEq

/-- Embeds PCSISystem.add_rule; time.time() is passed in as now. -/
def PCSISystem.add_rule (st : PCSISystem) (now : Nat) (pattern script_hash object_type : String)
    (script : Option String) : Rule × PCSISystem :=
  let rule : Rule :=
    { source := st.source_id, timestamp := now, pattern := pattern,
      script_hash := script_hash, object_type := object_type, script := script }
  (rule, { st with rules := st.rules ++ [rule] })

/-- Embeds PCSISystem.find_matching_rule: scan self.rules in order and
return the first rule r with re.match(r.pattern, url). -/
def find_matching_rule : List Rule → String → Option Rule
  | [], _ => none
  | rule :: rest, url =>
    if re_match rule.pattern url then some rule else find_matching_rule rest url

/-- The placeholder script hash of the synthesized default rule. -/
def default_script_hash : String := "CY7Iwrrw5i7MyjV7Zqdwf2Tj0Hb3iCsJF4Sv6jcrUyw="

/-- The pattern of the synthesized default rule. -/
def default_pattern : String := "https?://(www\\.)?bbc\\.com/.*"

/-- The eligibility test for default-rule synthesis in process_url:
"bbc.com" in url and ("/news/" in url or "/sport/" in url). -/
def default_eligible (url : String) : Bool :=
  pyContains "bbc.com".data url.data &&
    (pyContains "/news/".data url.data || pyContains "/sport/".data url.data)

/-- The rule-resolution phase of process_url: find a matching rule, or
synthesize and register the default rule when the URL is eligible. -/
def PCSISystem.resolve_rule (st : PCSISystem) (now : Nat) (url : String) :
    Option (Rule × PCSISystem) :=
  match find_matching_rule st.rules url with
  | some rule => some (rule, st)
  | none =>
    if default_eligible url then
      some (st.add_rule now default_pattern default_script_hash "article" none)
    else none

/-- Embeds PCSISystem.process_url.  The Extraction Port (the extractor
object and any exception it raises, whose message is str(e)) is the
extract parameter; int(time.time()) is now.  Returns the pair returned by
the Python method together with the updated system state. -/
def PCSISystem.process_url (st : PCSISystem) (extract : String → Except String Article)
    (now : Nat) (url : String) : (Option Article × Option Inference) × PCSISystem :=
  match st.resolve_rule now url with
  | none => ((none, none), st)
  | some (rule, st1) =>
    let inf : Inference :=
      { source := st1.source_id, timestamp := now, url := url,
        script_hash := rule.script_hash, object_type := none, object_hash := none,
        error := none, script := none, object := none }
    match extract url with
    | Except.ok doc =>
      let inf := { inf with object_type := some rule.object_type,
                            object_hash := some doc.hash }
      ((some doc, some inf), { st1 with inferences := st1.inferences ++ [inf] })
    | Except.error e =>
      let inf := { inf with error := some e }
      ((none, some inf), { st1 with inferences := st1.inferences ++ [inf] })

/-- Embeds PCSISystem.add_perception. -/
def PCSISystem.add_perception (st : PCSISystem) (now : Nat) (url object_type object_hash : String)
    (valid : Bool) : Perception × PCSISystem :=
  let p : Perception :=
    { source := st.source_id, timestamp := now, url := url, object_type := object_type,
      object_hash := object_hash, valid := valid }
  (p, { st with perceptions := st.perceptions ++ [p] })

/-- Embeds the writes of PCSISystem.export_records: every rule, then every
inference, then every perception, each as to_sexp followed by a newline. -/
def PCSISystem.export_records (st : PCSISystem) : String :=
  let out := st.rules.foldl (fun acc r => acc ++ (r.to_sexp ++ "\n")) ""
  let out := st.inferences.foldl (fun acc i => acc ++ (i.to_sexp ++ "\n")) out
  st.perceptions.foldl (fun acc p => acc ++ (p.to_sexp ++ "\n")) out

/-- Embeds the whole of PCSISystem.export_records including its
try/except: the sink write may fail (IOError), in which case the
exception is caught and logged; the Python method returns None on both
paths and never touches the three collections, so the caller receives the
first component and the (unchanged) state is the second. -/
def PCSISystem.export_records_io (st : PCSISystem) (write : String → Except String Unit) :
    Option String × PCSISystem :=
  match write st.export_records with
  | Except.ok _ => (none, st)
  | Except.error _ => (none, st)

/-! ## Definitions taken from the wording of the spec (for comparison) -/

/-- Modelled from the spec: the claimed atom encoder whose length prefix
is the byte length of the UTF-8 representation of s, with the empty
string encoding to the empty sequence. -/
def encodeAtom_bytelen (s : String) : String :=
  if s = "" then "" else toString (utf8Bytes s).length ++ ":" ++ s

/-- Modelled from the spec: the canonical form of an Image whose caption
field is entirely absent from the grammar, that is, only the url group
appears inside the image group. -/
def image_sexp_nocaption (url : String) : String :=
  SExpression.create_object "image"
    (SExpression.create_object "url" (SExpression.create_string url))

/-! ## Concrete instances used in the examples below -/

def ruleR1 : Rule :=
  { source := "s", timestamp := 0, pattern := "https://x/a.*", script_hash := "h1",
    object_type := "article", script := none }

def ruleR2 : Rule :=
  { source := "s", timestamp := 0, pattern := "https://x/.*", script_hash := "h2",
    object_type := "article", script := none }

def ruleAny : Rule :=
  { source := "src", timestamp := 0, pattern := ".*", script_hash := "SH",
    object_type := "article", script := none }

def stW1 : PCSISystem :=
  { source_id := "src", rules := [ruleAny], inferences := [], perceptions := [] }

def docW : Article :=
  { headline := "H", date := 1700000000, author := "A",
    body := { elements := [Element.sub { text := "S" }] } }

def ruleW2 : Rule :=
  { source := "W", timestamp := 0, pattern := ".*", script_hash := "WH",
    object_type := "article", script := none }

def stW2 : PCSISystem :=
  { source_id := "W", rules := [ruleW2], inferences := [], perceptions := [] }

def stC4 : PCSISystem :=
  { source_id := "S",
    rules := [{ source := "S", timestamp := 0, pattern := ".*", script_hash := "SH",
                object_type := "article", script := none }],
    inferences := [], perceptions := [] }

def ruleW3 : Rule :=
  { source := "V", timestamp := 3, pattern := "https://v/.*", script_hash := "VH",
    object_type := "article", script := none }

def stW3 : PCSISystem :=
  { source_id := "V", rules := [ruleW3], inferences := [], perceptions := [] }

def stEmptyS : PCSISystem :=
  { source_id := "S", rules := [], inferences := [], perceptions := [] }

def dupURL : String := "https://news.bbc.com/news/1"

def dupStep1 : PCSISystem :=
  (stEmptyS.process_url (fun _ => Except.error "x") 0 dupURL).2

def dupStep2 : PCSISystem :=
  (dupStep1.process_url (fun _ => Except.error "x") 0 dupURL).2

/-- One canonical record per output line: each record text followed by a
newline, concatenated in order. -/
def catRecLines : List String → String
  | [] => ""
  | s :: t => s ++ "\n" ++ catRecLines t

def stC9 : PCSISystem :=
  { source_id := "S", rules := [],
    inferences := [{ source := "S", timestamp := 0, url := "u", script_hash := "SH",
                     object_type := none, object_hash := none, error := some "e",
                     script := none, object := none }],
    perceptions := [] }

/-! ## Regex semantics and correctness of the derivative matcher -/

/-- Denotational matching relation: RMatch r s holds when the regex r
matches exactly the character list s. -/
inductive RMatch : Regex → List Char → Prop
  | eps : RMatch .eps []
  | lit (c : Char) : RMatch (.lit c) [c]
  | dot (c : Char) : RMatch .dot [c]
  | altL {r1 r2 s} : RMatch r1 s → RMatch (.alt r1 r2) s
  | altR {r1 r2 s} : RMatch r2 s → RMatch (.alt r1 r2) s
  | cat {r1 r2 s1 s2} : RMatch r1 s1 → RMatch r2 s2 → RMatch (.cat r1 r2) (s1 ++ s2)
  | starNil (r : Regex) : RMatch (.star r) []
  | starCons {r s1 s2} : RMatch r s1 → RMatch (.star r) s2 → RMatch (.star r) (s1 ++ s2)
  | optNone (r : Regex) : RMatch (.opt r) []
  | optSome {r s} : RMatch r s → RMatch (.opt r) s

theorem nullable_of_rmatch_nil {r : Regex} {s : List Char} (h : RMatch r s) (hs : s = []) :
    r.nullable = true := by
  induction h with
  | eps => rfl
  | lit c => cases hs
  | dot c => cases hs
  | altL _ ih => simp [Regex.nullable, ih hs]
  | altR _ ih => simp [Regex.nullable, ih hs]
  | cat _ _ ih1 ih2 =>
    rcases List.append_eq_nil.mp hs with ⟨h1, h2⟩
    simp [Regex.nullable, ih1 h1, ih2 h2]
  | starNil r => rfl
  | starCons _ _ _ _ => rfl
  | optNone r => rfl
  | optSome _ _ => rfl

theorem rmatch_nil_of_nullable {r : Regex} (h : r.nullable = true) : RMatch r [] := by
  induction r with
  | fail => simp [Regex.nullable] at h
  | eps => exact RMatch.eps
  | lit c => simp [Regex.nullable] at h
  | dot => simp [Regex.nullable] at h
  | alt r1 r2 ih1 ih2 =>
    simp [Regex.nullable] at h
    rcases h with h | h
    · exact RMatch.altL (ih1 h)
    · exact RMatch.altR (ih2 h)
  | cat r1 r2 ih1 ih2 =>
    simp [Regex.nullable] at h
    exact (List.nil_append ([] : List Char)) ▸ RMatch.cat (ih1 h.1) (ih2 h.2)
  | star r ih => exact RMatch.starNil r
  | opt r ih => exact RMatch.optNone r

theorem rmatch_of_deriv {r : Regex} {c : Char} {s : List Char}
    (h : RMatch (r.deriv c) s) : RMatch r (c :: s) := by
  induction r generalizing s with
  | fail => cases h
  | eps => cases h
  | lit d =>
    by_cases hd : d = c
    · simp [Regex.deriv, hd] at h
      cases h
      subst hd
      exact RMatch.lit d
    · simp [Regex.deriv, hd] at h
      cases h
  | dot =>
    cases h
    exact RMatch.dot c
  | alt r1 r2 ih1 ih2 =>
    cases h with
    | altL h1 => exact RMatch.altL (ih1 h1)
    | altR h2 => exact RMatch.altR (ih2 h2)
  | cat r1 r2 ih1 ih2 =>
    by_cases hn : r1.nullable
    · simp [Regex.deriv, hn] at h
      cases h with
      | altL h1 =>
        cases h1 with
        | cat ha hb =>
          rename_i s1 s2
          exact List.cons_append c s1 s2 ▸ RMatch.cat (ih1 ha) hb
      | altR h2 =>
        have : RMatch (Regex.cat r1 r2) ([] ++ (c :: s)) :=
          RMatch.cat (rmatch_nil_of_nullable hn) (ih2 h2)
        simpa using this
    · simp [Regex.deriv, hn] at h
      cases h with
      | cat ha hb =>
        rename_i s1 s2
        exact List.cons_append c s1 s2 ▸ RMatch.cat (ih1 ha) hb
  | star r ih =>
    cases h with
    | cat ha hb =>
      rename_i s1 s2
      exact List.cons_append c s1 s2 ▸ RMatch.starCons (ih ha) hb
  | opt r ih => exact RMatch.optSome (ih h)

theorem deriv_of_rmatch {r : Regex} {t : List Char} (h : RMatch r t) :
    ∀ c s, t = c :: s → RMatch (r.deriv c) s := by
  induction h with
  | eps => intro c s hcs; cases hcs
  | lit d =>
    intro c s hcs
    cases hcs
    simp [Regex.deriv]
    exact RMatch.eps
  | dot d =>
    intro c s hcs
    cases hcs
    exact RMatch.eps
  | altL _ ih =>
    intro c s hcs
    exact RMatch.altL (ih c s hcs)
  | altR _ ih =>
    intro c s hcs
    exact RMatch.altR (ih c s hcs)
  | cat h1 h2 ih1 ih2 =>
    rename_i r1 r2 s1 s2
    intro c s hcs
    cases s1 with
    | nil =>
      have hn : r1.nullable = true := nullable_of_rmatch_nil h1 rfl
      simp at hcs
      simp [Regex.deriv, hn]
      exact RMatch.altR (ih2 c s hcs)
    | cons a as =>
      simp at hcs
      rcases hcs with ⟨hac, hs⟩
      subst hac
      have hd1 : RMatch (r1.deriv a) as := ih1 a as rfl
      by_cases hn : r1.nullable
      · simp [Regex.deriv, hn]
        exact RMatch.altL (hs ▸ RMatch.cat hd1 h2)
      · simp [Regex.deriv, hn]
        exact hs ▸ RMatch.cat hd1 h2
  | starNil r => intro c s hcs; cases hcs
  | starCons h1 h2 ih1 ih2 =>
    rename_i r s1 s2
    intro c s hcs
    cases s1 with
    | nil =>
      simp at hcs
      exact ih2 c s hcs
    | cons a as =>
      simp at hcs
      rcases hcs with ⟨hac, hs⟩
      subst hac
      simp [Regex.deriv]
      exact hs ▸ RMatch.cat (ih1 a as rfl) h2
  | optNone r => intro c s hcs; cases hcs
  | optSome _ ih =>
    intro c s hcs
    simp [Regex.deriv]
    exact ih c s hcs

/-- Correctness of the prefix matcher: it decides whether the regex
matches some prefix of the input. -/
theorem matchPre_iff (r : Regex) (cs : List Char) :
    r.matchPre cs = true ↔ ∃ p q, cs = p ++ q ∧ RMatch r p := by
  induction cs generalizing r with
  | nil =>
    simp only [Regex.matchPre]
    constructor
    · intro h
      exact ⟨[], [], rfl, rmatch_nil_of_nullable h⟩
    · rintro ⟨p, q, hpq, hm⟩
      rcases List.append_eq_nil.mp hpq.symm with ⟨hp, -⟩
      exact nullable_of_rmatch_nil hm hp
  | cons c cs ih =>
    simp only [Regex.matchPre, Bool.or_eq_true]
    constructor
    · rintro (h | h)
      · exact ⟨[], c :: cs, rfl, rmatch_nil_of_nullable h⟩
      · rcases (ih (r.deriv c)).mp h with ⟨p, q, hpq, hm⟩
        exact ⟨c :: p, q, by simp [hpq], rmatch_of_deriv hm⟩
    · rintro ⟨p, q, hpq, hm⟩
      cases p with
      | nil => exact Or.inl (nullable_of_rmatch_nil hm rfl)
      | cons a as =>
        simp at hpq
        rcases hpq with ⟨hac, hcs⟩
        subst hac
        exact Or.inr ((ih (r.deriv c)).mpr ⟨as, q, hcs, deriv_of_rmatch hm c as rfl⟩)

/-! ## Helper lemmas -/

theorem find_matching_rule_first_aux (url : String) (pre post : List Rule) (r : Rule)
    (hpre : ∀ r' ∈ pre, re_match r'.pattern url = false)
    (hr : re_match r.pattern url = true) :
    find_matching_rule (pre ++ r :: post) url = some r := by
  induction pre with
  | nil => simp [find_matching_rule, hr]
  | cons a l ih =>
    have ha : re_match a.pattern url = false := hpre a (List.mem_cons_self a l)
    simp only [List.cons_append, find_matching_rule, ha, Bool.false_eq_true, if_false]
    exact ih fun r' hr' => hpre r' (List.mem_cons_of_mem a hr')

theorem find_matching_rule_app_none (url : String) (l1 l2 : List Rule)
    (h : find_matching_rule l1 url = none) :
    find_matching_rule (l1 ++ l2) url = find_matching_rule l2 url := by
  induction l1 with
  | nil => simp
  | cons a l ih =>
    by_cases ha : re_match a.pattern url = true
    · simp [find_matching_rule, ha] at h
    · simp only [find_matching_rule, ha, Bool.false_eq_true, if_false] at h
      simp only [List.cons_append, find_matching_rule, ha, Bool.false_eq_true, if_false]
      exact ih h

theorem process_url_rules_of_found (st : PCSISystem) (extract : String → Except String Article)
    (now : Nat) (url : String) (rule : Rule)
    (h : find_matching_rule st.rules url = some rule) :
    (st.process_url extract now url).2.rules = st.rules := by
  unfold PCSISystem.process_url PCSISystem.resolve_rule
  rw [h]
  cases extract url <;> simp

/-! ## Claim theorems -/

/-- Claim C2, counterexample: the length prefix written by
SExpression.create_string is the code-point count, not the UTF-8 byte
length; on the one-character string "é" (two UTF-8 bytes) the output is
"1:é", which differs from the byte-length format claimed by the spec. -/
theorem create_string_bytelen_counterexample :
    SExpression.create_string "é" = "1:é" ∧ (utf8Bytes "é").length = 2 ∧
    SExpression.create_string "é" ≠ encodeAtom_bytelen "é" := by
  refine ⟨by decide, by decide, by decide⟩

/-- Claim C2 (amended): for every string s, SExpression.create_string s is
the character (code point) count of s, a colon, then s; the empty string
produces empty output rather than "0:".  The count equals the UTF-8 byte
length exactly when every character of s is ASCII. -/
theorem create_string_charlen (s : String) (h : s ≠ "") :
    SExpression.create_string s = toString s.length ++ ":" ++ s ∧
    SExpression.create_string "" = "" := by
  constructor
  · simp [SExpression.create_string, h]
  · rfl

theorem create_string_charlen_witness :
    SExpression.create_string "abc" = toString ("abc" : String).length ++ ":" ++ "abc" ∧
    SExpression.create_string "" = "" :=
  create_string_charlen "abc" (by decide)

/-- Claim C3: an S-expression group with empty content vanishes entirely,
whatever its name; consequently an Image with empty caption canonicalizes
to exactly the bytes of an Image whose caption field is absent from the
grammar. -/
theorem create_object_empty_group (name url : String) :
    SExpression.create_object name "" = "" ∧
    Image.to_sexp { url := url, caption := "" } = image_sexp_nocaption url := by
  constructor
  · simp [SExpression.create_object]
  · simp [Image.to_sexp, image_sexp_nocaption, SExpression.create_string,
      SExpression.create_object, String.append_empty]

/-- Claim C6: find_matching_rule scans the registry in registration order
and returns the first rule whose pattern matches; the match predicate
re_match is prefix-anchored regular-expression matching, in the sense
that it holds exactly when the compiled pattern matches some prefix of
the URL. -/
theorem find_matching_rule_spec (url : String) (pre post : List Rule) (r : Rule)
    (hpre : ∀ r' ∈ pre, re_match r'.pattern url = false)
    (hr : re_match r.pattern url = true) :
    find_matching_rule (pre ++ r :: post) url = some r ∧
    (∀ p u : String, re_match p u = true ↔
      ∃ re, compilePattern p = some re ∧ ∃ a b, u.data = a ++ b ∧ RMatch re a) := by
  constructor
  · exact find_matching_rule_first_aux url pre post r hpre hr
  · intro p u
    unfold re_match
    cases hc : compilePattern p with
    | none => simp
    | some re =>
      rw [matchPre_iff]
      constructor
      · rintro ⟨a, b, hab, hm⟩
        exact ⟨re, rfl, a, b, hab, hm⟩
      · rintro ⟨re', hre', a, b, hab, hm⟩
        injection hre' with hee
        subst hee
        exact ⟨a, b, hab, hm⟩

theorem find_matching_rule_spec_witness :
    find_matching_rule [ruleR1, ruleR2] "https://x/a1" = some ruleR1 ∧
    re_match ruleR2.pattern "https://x/a1" = true ∧
    ruleR1 ≠ ruleR2 :=
  ⟨(find_matching_rule_spec "https://x/a1" [] [ruleR2] ruleR1
      (by intro r' hr'; cases hr') (by decide)).1,
   by decide, by decide⟩

/-- Claim C1: when a rule resolves and the Extraction Port returns a
document, process_url returns (document, inference) where the inference
outcome is Success with object_type equal to the object type of the
matched rule and object_hash exactly the digest of the canonical
serialization of the returned document, and the inference is appended to
the inference collection of the ledger. -/
theorem process_url_success_spec (st : PCSISystem) (extract : String → Except String Article)
    (now : Nat) (url : String) (rule : Rule) (st1 : PCSISystem) (doc : Article)
    (h1 : st.resolve_rule now url = some (rule, st1))
    (h2 : extract url = Except.ok doc) :
    ∃ inf : Inference,
      st.process_url extract now url =
        ((some doc, some inf), { st1 with inferences := st1.inferences ++ [inf] }) ∧
      inf.object_type = some rule.object_type ∧
      inf.object_hash = some (SExpression.hash_sexp doc.to_sexp) ∧
      inf.error = none := by
  refine ⟨{ source := st1.source_id, timestamp := now, url := url,
            script_hash := rule.script_hash, object_type := some rule.object_type,
            object_hash := some doc.hash, error := none, script := none, object := none },
          ?_, rfl, rfl, rfl⟩
  unfold PCSISystem.process_url
  rw [h1, h2]

theorem process_url_success_spec_witness :
    ∃ inf : Inference,
      stW1.process_url (fun _ => Except.ok docW) 0 "https://x/a1" =
        ((some docW, some inf), { stW1 with inferences := stW1.inferences ++ [inf] }) ∧
      inf.object_type = some ruleAny.object_type ∧
      inf.object_hash = some (SExpression.hash_sexp docW.to_sexp) ∧
      inf.error = none :=
  process_url_success_spec stW1 (fun _ => Except.ok docW) 0 "https://x/a1" ruleAny stW1 docW
    (by decide) rfl

/-- Claim C5: when a rule resolves and the Extraction Port fails with
message msg, process_url returns (none, inference) with the inference
outcome Failure carrying msg, the inference is appended to the inference
collection, and the call returns normally (the failure is recorded as
data, not re-raised: the embedded function is total and its value is the
pair the Python method returns). -/
theorem process_url_failure_spec (st : PCSISystem) (extract : String → Except String Article)
    (now : Nat) (url : String) (rule : Rule) (st1 : PCSISystem) (msg : String)
    (h1 : st.resolve_rule now url = some (rule, st1))
    (h2 : extract url = Except.error msg) :
    ∃ inf : Inference,
      st.process_url extract now url =
        ((none, some inf), { st1 with inferences := st1.inferences ++ [inf] }) ∧
      inf.error = some msg ∧
      inf.url = url ∧
      inf.script_hash = rule.script_hash := by
  refine ⟨{ source := st1.source_id, timestamp := now, url := url,
            script_hash := rule.script_hash, object_type := none,
            object_hash := none, error := some msg, script := none, object := none },
          ?_, rfl, rfl, rfl⟩
  unfold PCSISystem.process_url
  rw [h1, h2]

theorem process_url_failure_spec_witness :
    ∃ inf : Inference,
      stW1.process_url (fun _ => Except.error "timeout") 0 "https://x/a1" =
        ((none, some inf), { stW1 with inferences := stW1.inferences ++ [inf] }) ∧
      inf.error = some "timeout" ∧
      inf.url = "https://x/a1" ∧
      inf.script_hash = ruleAny.script_hash :=
  process_url_failure_spec stW1 (fun _ => Except.error "timeout") 0 "https://x/a1" ruleAny stW1
    "timeout" (by decide) rfl

/-- Claim C10: when a rule resolves and the Extraction Port fails with an
empty message, the recorded inference has error set to the empty string,
yet its serialization goes through the success branch of
Inference.to_sexp: the error group and the object-type group vanish
(their contents are empty) while an object-hash group holding the
verbatim text |None| is emitted. -/
theorem process_url_empty_error_serialization (st : PCSISystem)
    (extract : String → Except String Article) (now : Nat) (url : String)
    (rule : Rule) (st1 : PCSISystem)
    (h1 : st.resolve_rule now url = some (rule, st1))
    (h2 : extract url = Except.error "") :
    ∃ inf : Inference,
      st.process_url extract now url =
        ((none, some inf), { st1 with inferences := st1.inferences ++ [inf] }) ∧
      inf.error = some "" ∧ inf.object_type = none ∧ inf.object_hash = none ∧
      inf.to_sexp = SExpression.create_object "inference"
        (SExpression.create_object "source" ("|" ++ st1.source_id ++ "|") ++
         SExpression.create_object "timestamp" (SExpression.create_string (toString now)) ++
         SExpression.create_object "url" (SExpression.create_string url) ++
         SExpression.create_object "script-hash" ("|" ++ rule.script_hash ++ "|") ++
         SExpression.create_object "object-hash" "|None|") := by
  refine ⟨{ source := st1.source_id, timestamp := now, url := url,
            script_hash := rule.script_hash, object_type := none,
            object_hash := none, error := some "", script := none, object := none },
          ?_, rfl, rfl, rfl, ?_⟩
  · unfold PCSISystem.process_url
    rw [h1, h2]
  · simp [Inference.to_sexp, pyTruthy, pyStrOpt, SExpression.create_string_opt,
      SExpression.create_object, SExpression.create_string, String.append_empty,
      String.append_assoc]

theorem process_url_empty_error_serialization_witness :
    ∃ inf : Inference,
      stW2.process_url (fun _ => Except.error "") 7 "https://w/1" =
        ((none, some inf), { stW2 with inferences := stW2.inferences ++ [inf] }) ∧
      inf.error = some "" ∧ inf.object_type = none ∧ inf.object_hash = none ∧
      inf.to_sexp = SExpression.create_object "inference"
        (SExpression.create_object "source" ("|" ++ stW2.source_id ++ "|") ++
         SExpression.create_object "timestamp" (SExpression.create_string (toString 7)) ++
         SExpression.create_object "url" (SExpression.create_string "https://w/1") ++
         SExpression.create_object "script-hash" ("|" ++ ruleW2.script_hash ++ "|") ++
         SExpression.create_object "object-hash" "|None|") :=
  process_url_empty_error_serialization stW2 (fun _ => Except.error "") 7 "https://w/1"
    ruleW2 stW2 (by decide) rfl

/-- Claim C4, counterexample: when the Extraction Port raises with an
empty message, the recorded inference has the Failure branch populated
(error = some ""), yet its canonical serialization does not emit the
error group; it emits the object-hash group of the absent Success branch,
holding the text |None|.  The serializer therefore does not emit only the
branch that is present, for this error message text. -/
theorem inference_branch_emission_counterexample :
    ((stC4.process_url (fun _ => Except.error "") 0 "https://x/a1").1.2).map
        Inference.error = some (some "") ∧
    ((stC4.process_url (fun _ => Except.error "") 0 "https://x/a1").1.2).map
        Inference.to_sexp =
      some ("(9:inference(6:source|S|)(9:timestamp1:0)(3:url12:https://x/a1)" ++
            "(11:script-hash|SH|)(11:object-hash|None|))") := by
  constructor
  · decide
  · decide

/-- Claim C4 (amended): every inference recorded by process_url has
exactly one outcome branch populated — the Success fields on extraction
success, the error field on extraction failure — and for every NONEMPTY
error message the canonical serialization emits exactly the branch that
is present.  (For the empty error message the Failure branch is populated
but the serializer emits through the success branch; see the
counterexample.) -/
theorem inference_outcome_branches (st : PCSISystem)
    (extract : String → Except String Article) (now : Nat) (url : String)
    (rule : Rule) (st1 : PCSISystem)
    (h1 : st.resolve_rule now url = some (rule, st1)) :
    (∀ doc : Article, extract url = Except.ok doc →
      ∃ inf : Inference, (st.process_url extract now url).1.2 = some inf ∧
        inf.error = none ∧ inf.object_type = some rule.object_type ∧
        inf.object_hash = some (SExpression.hash_sexp doc.to_sexp) ∧
        inf.to_sexp = SExpression.create_object "inference"
          (SExpression.create_object "source" ("|" ++ st1.source_id ++ "|") ++
           SExpression.create_object "timestamp" (SExpression.create_string (toString now)) ++
           SExpression.create_object "url" (SExpression.create_string url) ++
           SExpression.create_object "script-hash" ("|" ++ rule.script_hash ++ "|") ++
           SExpression.create_object "object-type"
             (SExpression.create_string rule.object_type) ++
           SExpression.create_object "object-hash"
             ("|" ++ SExpression.hash_sexp doc.to_sexp ++ "|"))) ∧
    (∀ msg : String, msg ≠ "" → extract url = Except.error msg →
      ∃ inf : Inference, (st.process_url extract now url).1.2 = some inf ∧
        inf.error = some msg ∧ inf.object_type = none ∧ inf.object_hash = none ∧
        inf.to_sexp = SExpression.create_object "inference"
          (SExpression.create_object "source" ("|" ++ st1.source_id ++ "|") ++
           SExpression.create_object "timestamp" (SExpression.create_string (toString now)) ++
           SExpression.create_object "url" (SExpression.create_string url) ++
           SExpression.create_object "script-hash" ("|" ++ rule.script_hash ++ "|") ++
           SExpression.create_object "error" (SExpression.create_string msg))) := by
  constructor
  · intro doc h2
    refine ⟨{ source := st1.source_id, timestamp := now, url := url,
              script_hash := rule.script_hash, object_type := some rule.object_type,
              object_hash := some doc.hash, error := none, script := none, object := none },
            ?_, rfl, rfl, rfl, ?_⟩
    · unfold PCSISystem.process_url
      rw [h1, h2]
    · simp [Inference.to_sexp, pyTruthy, pyStrOpt, SExpression.create_string_opt,
        Article.hash, String.append_assoc]
  · intro msg hmsg h2
    have ht : pyTruthy (some msg) = true := by simp [pyTruthy, hmsg]
    refine ⟨{ source := st1.source_id, timestamp := now, url := url,
              script_hash := rule.script_hash, object_type := none,
              object_hash := none, error := some msg, script := none, object := none },
            ?_, rfl, rfl, rfl, ?_⟩
    · unfold PCSISystem.process_url
      rw [h1, h2]
    · simp [Inference.to_sexp, ht, pyTruthy, SExpression.create_string_opt,
        String.append_assoc, hmsg]

theorem inference_outcome_branches_witness :
    ∃ inf : Inference,
      (stW3.process_url (fun _ => Except.error "E") 4 "https://v/9").1.2 = some inf ∧
      inf.error = some "E" ∧ inf.object_type = none ∧ inf.object_hash = none ∧
      inf.to_sexp = SExpression.create_object "inference"
        (SExpression.create_object "source" ("|" ++ stW3.source_id ++ "|") ++
         SExpression.create_object "timestamp" (SExpression.create_string (toString 4)) ++
         SExpression.create_object "url" (SExpression.create_string "https://v/9") ++
         SExpression.create_object "script-hash" ("|" ++ ruleW3.script_hash ++ "|") ++
         SExpression.create_object "error" (SExpression.create_string "E")) :=
  (inference_outcome_branches stW3 (fun _ => Except.error "E") 4 "https://v/9" ruleW3 stW3
    (by decide)).2 "E" (by decide) rfl

/-- Claim C7, counterexample: the URL https://news.bbc.com/news/1
satisfies the eligibility heuristic (it contains bbc.com and /news/), so
an unmatched call synthesizes the default rule; but the synthesized
catch-all pattern does not match this URL, so a second call with the very
same URL synthesizes and registers the default rule again — rules[0] and
rules[1] are equal — instead of reusing the first one. -/
theorem default_rule_duplicate_counterexample :
    default_eligible dupURL = true ∧
    re_match default_pattern dupURL = false ∧
    dupStep1.rules.length = 1 ∧
    dupStep2.rules.length = 2 ∧
    dupStep2.rules.get? 0 = dupStep2.rules.get? 1 := by
  refine ⟨by decide, by decide, by decide, by decide, by decide⟩

/-- Claim C7 (amended): when no rule matches an eligible URL, process_url
synthesizes and registers one catch-all default rule with the fixed
placeholder script hash; a second call whose URL the synthesized catch-all
pattern matches reuses that rule and registers nothing new; for an
ineligible unmatched URL nothing is synthesized.  (An eligible URL that
the catch-all pattern itself does not match triggers synthesis again on a
later call, appending a duplicate: see the counterexample.) -/
theorem default_rule_synthesis (st : PCSISystem)
    (e1 e2 : String → Except String Article) (now now2 : Nat) (url url2 : String)
    (h1 : find_matching_rule st.rules url = none)
    (h2 : default_eligible url = true)
    (h3 : find_matching_rule st.rules url2 = none)
    (h4 : re_match default_pattern url2 = true) :
    (st.process_url e1 now url).2.rules =
      st.rules ++ [{ source := st.source_id, timestamp := now, pattern := default_pattern,
                     script_hash := default_script_hash, object_type := "article",
                     script := none }] ∧
    ((st.process_url e1 now url).2.process_url e2 now2 url2).2.rules =
      (st.process_url e1 now url).2.rules ∧
    (∀ url3, find_matching_rule st.rules url3 = none → default_eligible url3 = false →
      st.process_url e1 now url3 = ((none, none), st)) := by
  have hrules1 : (st.process_url e1 now url).2.rules =
      st.rules ++ [{ source := st.source_id, timestamp := now, pattern := default_pattern,
                     script_hash := default_script_hash, object_type := "article",
                     script := none }] := by
    unfold PCSISystem.process_url PCSISystem.resolve_rule PCSISystem.add_rule
    rw [h1, h2]
    cases e1 url <;> rfl
  refine ⟨hrules1, ?_, ?_⟩
  · have hfound : find_matching_rule ((st.process_url e1 now url).2.rules) url2 =
        some { source := st.source_id, timestamp := now, pattern := default_pattern,
               script_hash := default_script_hash, object_type := "article",
               script := none } := by
      rw [hrules1, find_matching_rule_app_none url2 st.rules _ h3]
      simp [find_matching_rule, h4]
    exact process_url_rules_of_found _ e2 now2 url2 _ hfound
  · intro url3 hf3 he3
    unfold PCSISystem.process_url PCSISystem.resolve_rule
    rw [hf3, he3]
    rfl

theorem default_rule_synthesis_witness :
    (stEmptyS.process_url (fun _ => Except.error "x") 0
        "https://www.bbc.com/news/articles/abc").2.rules =
      stEmptyS.rules ++
        [{ source := stEmptyS.source_id, timestamp := 0, pattern := default_pattern,
           script_hash := default_script_hash, object_type := "article", script := none }] ∧
    ((stEmptyS.process_url (fun _ => Except.error "x") 0
        "https://www.bbc.com/news/articles/abc").2.process_url
          (fun _ => Except.error "x") 1 "https://www.bbc.com/news/articles/xyz").2.rules =
      (stEmptyS.process_url (fun _ => Except.error "x") 0
        "https://www.bbc.com/news/articles/abc").2.rules ∧
    stEmptyS.process_url (fun _ => Except.error "x") 0 "https://example.com/a" =
      ((none, none), stEmptyS) := by
  obtain ⟨a, b, c⟩ := default_rule_synthesis stEmptyS (fun _ => Except.error "x")
    (fun _ => Except.error "x") 0 1 "https://www.bbc.com/news/articles/abc"
    "https://www.bbc.com/news/articles/xyz" (by decide) (by decide) (by decide) (by decide)
  exact ⟨a, b, c "https://example.com/a" (by decide) (by decide)⟩

theorem foldl_lines {α : Type} (f : α → String) (l : List α) (init : String) :
    l.foldl (fun acc x => acc ++ (f x ++ "\n")) init = init ++ catRecLines (l.map f) := by
  induction l generalizing init with
  | nil => simp [catRecLines, String.append_empty]
  | cons a t ih => simp [catRecLines, ih, String.append_assoc]

/-- Claim C8: export_records writes every rule, then every inference,
then every perception — in that fixed group order, each group in its
original append order — as one canonical record per line with no other
separators; and the output depends only on the three collections, so
exporting the same unchanged ledger twice yields byte-identical output. -/
theorem export_records_structure (st : PCSISystem) :
    (st.export_records =
      catRecLines (st.rules.map Rule.to_sexp) ++
      catRecLines (st.inferences.map Inference.to_sexp) ++
      catRecLines (st.perceptions.map Perception.to_sexp)) ∧
    (∀ (sid sid2 : String) (rs : List Rule) (infs : List Inference) (ps : List Perception),
      (PCSISystem.mk sid rs infs ps).export_records =
      (PCSISystem.mk sid2 rs infs ps).export_records) := by
  constructor
  · unfold PCSISystem.export_records
    rw [foldl_lines, foldl_lines, foldl_lines]
    simp [String.empty_append, String.append_assoc]
  · intro sid sid2 rs infs ps
    unfold PCSISystem.export_records
    rfl

/-- Claim C9, counterexample: a failing export write is NOT surfaced to
the caller.  The Python method catches IOError and only logs it, reaching
the end of the function on both paths; the caller receives None and the
resulting observable state is identical whether the sink write failed or
succeeded, so no reportable condition reaches the caller. -/
theorem export_error_not_surfaced_counterexample :
    (stC9.export_records_io (fun _ => Except.error "disk full")).1 = none ∧
    stC9.export_records_io (fun _ => Except.error "disk full") =
      stC9.export_records_io (fun _ => Except.ok ()) :=
  ⟨rfl, rfl⟩

/-- Claim C9 (amended): a failure to write the export sink is caught and
logged, never propagated: the call returns normally with nothing for the
caller, and the in-memory ledger state is unchanged and valid, so the
export can be retried. -/
theorem export_error_state_preserved (st : PCSISystem)
    (write : String → Except String Unit) :
    (st.export_records_io write).2 = st ∧ (st.export_records_io write).1 = none := by
  unfold PCSISystem.export_records_io
  cases write st.export_records <;> exact ⟨rfl, rfl⟩
